import Mathlib

/-!
A shallow embedding of the Sanka BitTorrent tracker core
(`src/torrent.rs`, `src/route.rs`) and proofs about its behavior.

Conventions of the embedding:
* Rust machine integers (`u8`, `u16`, `u64`) are modelled as `Nat`; where a
  truncating cast (`as u8`) occurs in the source, the embedding writes the
  explicit `% 256`.
* `std::collections::HashMap<String, Peer>` is modelled as an association
  list `List (String × Peer)` with hashmap semantics: `insertKey` replaces
  any existing binding, `removeKey` erases the key, `lookupKey` finds the
  first (hence, on unique-keyed lists, the only) binding.  Iteration order
  of the map is the list order; the source relies on no particular order.
* `time::SteadyTime::now()` is modelled by threading an explicit `now : Nat`
  argument through the stateful operations.
* Fallible Rust code (`Result<T, E>`) becomes `Except E T`; a Rust `panic`
  (from `.unwrap()` on an `Err`) becomes `Option.none` at the outermost
  level of the request handler.
-/

namespace Sanka

/-- An IPv4 address: four octets, as returned by `Ipv4Addr::octets()`. -/
structure Ipv4Addr where
  o1 : Nat
  o2 : Nat
  o3 : Nat
  o4 : Nat
deriving DecidableEq

/-- An IPv6 address: eight 16-bit segments, as returned by `Ipv6Addr::segments()`. -/
structure Ipv6Addr where
  s1 : Nat
  s2 : Nat
  s3 : Nat
  s4 : Nat
  s5 : Nat
  s6 : Nat
  s7 : Nat
  s8 : Nat
deriving DecidableEq

/-- Embedding of `std::net::IpAddr`: either family of bare address. -/
inductive IpAddr where
  | v4 (a : Ipv4Addr)
  | v6 (a : Ipv6Addr)
deriving DecidableEq

/-- Embedding of `std::net::SocketAddrV4`: an IPv4 address plus a port. -/
structure SockV4 where
  ip : Ipv4Addr
  port : Nat
deriving DecidableEq

/-- Embedding of `std::net::SocketAddrV6`: an IPv6 address plus a port. -/
structure SockV6 where
  ip : Ipv6Addr
  port : Nat
deriving DecidableEq

/-- Embedding of `std::net::SocketAddr`: either family of endpoint. -/
inductive SockAddr where
  | V4 (s : SockV4)
  | V6 (s : SockV6)
deriving DecidableEq

/-- Embedding of `SocketAddr::new(ip, port)`: pair a bare address with a port, keeping its family. -/
def SockAddr.new (ip : IpAddr) (port : Nat) : SockAddr :=
  match ip with
  | IpAddr.v4 a => SockAddr.V4 ⟨a, port⟩
  | IpAddr.v6 a => SockAddr.V6 ⟨a, port⟩

/-- Well-formedness of an IPv4 endpoint: octets are bytes, port is 16-bit. -/
def SockV4.wf (s : SockV4) : Prop :=
  s.ip.o1 < 256 ∧ s.ip.o2 < 256 ∧ s.ip.o3 < 256 ∧ s.ip.o4 < 256 ∧ s.port < 65536

/-- Well-formedness of an IPv6 endpoint: segments and port are 16-bit. -/
def SockV6.wf (s : SockV6) : Prop :=
  s.ip.s1 < 65536 ∧ s.ip.s2 < 65536 ∧ s.ip.s3 < 65536 ∧ s.ip.s4 < 65536 ∧
  s.ip.s5 < 65536 ∧ s.ip.s6 < 65536 ∧ s.ip.s7 < 65536 ∧ s.ip.s8 < 65536 ∧ s.port < 65536

instance (s : SockV4) : Decidable s.wf := by unfold SockV4.wf; infer_instance

instance (s : SockV6) : Decidable s.wf := by unfold SockV6.wf; infer_instance

/-- Embedding of `u16_to_u8` from `torrent.rs`: big-endian split of a 16-bit value into two
bytes; the `as u8` casts are the explicit `% 256`. -/
def u16_to_u8 (i : Nat) : List Nat :=
  [(i >>> 8) % 256, (i &&& 0xff) % 256]

/-- Embedding of `v4_to_bytes` from `torrent.rs`: the 6-byte compact form, 4 address octets
followed by the big-endian port. -/
def v4_to_bytes (s : SockV4) : List Nat :=
  [s.ip.o1, s.ip.o2, s.ip.o3, s.ip.o4] ++ u16_to_u8 s.port

/-- Embedding of `v6_to_bytes` from `torrent.rs`: the 18-byte compact form, eight big-endian
segments followed by the big-endian port. -/
def v6_to_bytes (s : SockV6) : List Nat :=
  u16_to_u8 s.ip.s1 ++ u16_to_u8 s.ip.s2 ++ u16_to_u8 s.ip.s3 ++ u16_to_u8 s.ip.s4 ++
  u16_to_u8 s.ip.s5 ++ u16_to_u8 s.ip.s6 ++ u16_to_u8 s.ip.s7 ++ u16_to_u8 s.ip.s8 ++
  u16_to_u8 s.port

/-- Modelled from the spec: the compact-format decoder is not part of this
repository (clients decode the 6-byte form); it reads 4 octets and a
big-endian port, inverting `v4_to_bytes`. -/
def bytes_to_v4 (bs : List Nat) : Option SockV4 :=
  match bs with
  | [a, b, c, d, p1, p2] => some ⟨⟨a, b, c, d⟩, p1 * 256 + p2⟩
  | _ => none

/-- Modelled from the spec: the compact-format decoder for the 18-byte IPv6
form, reading eight big-endian segments then the big-endian port, inverting
`v6_to_bytes`. -/
def bytes_to_v6 (bs : List Nat) : Option SockV6 :=
  match bs with
  | [a1, a2, b1, b2, c1, c2, d1, d2, e1, e2, f1, f2, g1, g2, h1, h2, p1, p2] =>
    some ⟨⟨a1 * 256 + a2, b1 * 256 + b2, c1 * 256 + c2, d1 * 256 + d2,
           e1 * 256 + e2, f1 * 256 + f2, g1 * 256 + g2, h1 * 256 + h2⟩, p1 * 256 + p2⟩
  | _ => none

lemma u16_to_u8_eq (i : Nat) (h : i < 65536) : u16_to_u8 i = [i / 256, i % 256] := by
  unfold u16_to_u8
  have h1 : i >>> 8 = i / 256 := by
    rw [Nat.shiftRight_eq_div_pow]
  have h2 : i &&& 0xff = i % 256 := by
    have := Nat.and_pow_two_sub_one_eq_mod i 8
    simpa using this
  rw [h1, h2]
  have hd : i / 256 < 256 := by omega
  have hm : i % 256 < 256 := Nat.mod_lt _ (by norm_num)
  rw [Nat.mod_eq_of_lt hd, Nat.mod_eq_of_lt hm]

lemma u16_round (i : Nat) :
    i / 256 * 256 + i % 256 = i := by
  omega

/-- Embedding of `Action` from the announce module: the peer's role transition. -/
inductive Action where
  | Seeding
  | Leeching
  | Completed
  | Stopped
deriving DecidableEq

/-- Embedding of `Announce`: one normalized client request (fields as in the spec's data
model; `ul`/`dl`/`left` are the `uploaded`/`downloaded`/`left` counters). -/
structure Announce where
  info_hash : String
  peer_id : String
  ipv4 : Option SockV4
  ipv6 : Option SockV6
  ul : Nat
  dl : Nat
  left : Nat
  action : Action
  numwant : Nat
deriving DecidableEq

/-- Modelled from the spec: `Delta` lives in `peer.rs`, which is not part of
the provided sources.  Per the spec it carries the peer_id and the counter
change sufficient to compute upload/download deltas; `Delta::new(peer_id)`
is the empty delta for that peer. -/
structure Delta where
  peer_id : String
  ul : Nat
  dl : Nat
deriving DecidableEq

/-- Modelled from the spec: `Delta::new` produces an empty delta. -/
def Delta.new (pid : String) : Delta := ⟨pid, 0, 0⟩

/-- Modelled from the spec: `Peer` lives in `peer.rs`, which is not part of
the provided sources.  Per the spec's data model it holds the resolved
endpoints, cumulative upload/download counters and a last-activity
timestamp. -/
structure Peer where
  ipv4 : Option SockV4
  ipv6 : Option SockV6
  ul : Nat
  dl : Nat
  last_action : Nat
deriving DecidableEq

/-- Modelled from the spec: `Peer::new(&a)` builds a peer from an announce,
stamped with the current time. -/
def Peer.new (a : Announce) (now : Nat) : Peer :=
  ⟨a.ipv4, a.ipv6, a.ul, a.dl, now⟩

/-- Modelled from the spec: `Peer::update(&a)` refreshes the peer's byte
counters and last-activity timestamp and returns a `Delta` describing the
counter change. -/
def Peer.update (p : Peer) (a : Announce) (now : Nat) : Peer × Delta :=
  ({ p with ul := a.ul, dl := a.dl, last_action := now },
   ⟨a.peer_id, a.ul - p.ul, a.dl - p.dl⟩)

/-- Embedding of `HashMap::get` on the association-list model. -/
def lookupKey (k : String) : List (String × Peer) → Option Peer
  | [] => none
  | (k2, v) :: rest => if k2 = k then some v else lookupKey k rest

/-- Embedding of `HashMap::contains_key` on the association-list model. -/
def containsKey (k : String) (m : List (String × Peer)) : Bool :=
  (lookupKey k m).isSome

/-- Embedding of `HashMap::remove` on the association-list model: erase the key. -/
def removeKey (k : String) (m : List (String × Peer)) : List (String × Peer) :=
  m.filter (fun kv => kv.1 ≠ k)

/-- Embedding of `HashMap::insert` on the association-list model: replace any existing
binding for the key. -/
def insertKey (k : String) (v : Peer) (m : List (String × Peer)) : List (String × Peer) :=
  (k, v) :: removeKey k m

/-- Embedding of `Torrent` from `torrent.rs`: one content swarm. -/
structure Torrent where
  hash : String
  snatches : Nat
  seeders : List (String × Peer)
  leechers : List (String × Peer)
  last_action : Nat
deriving DecidableEq

/-- Embedding of `Torrent::new` from `torrent.rs`. -/
def Torrent.new (hash : String) (now : Nat) : Torrent :=
  ⟨hash, 0, [], [], now⟩

/-- Embedding of `Stats` from `torrent.rs`. -/
structure Stats where
  complete : Nat
  incomplete : Nat
  downloaded : Nat
deriving DecidableEq

/-- Embedding of `Torrent::update` from `torrent.rs` (lines 39-83).  `SteadyTime::now()`
is the explicit `now`.  In the Seeding/Leeching branches the source guards
`get_mut` with `contains_key`; the dead `None` arm under a true
`contains_key` is collapsed into the single `lookupKey` match. -/
def Torrent.update (t : Torrent) (a : Announce) (now : Nat) : Torrent × Delta :=
  let t := { t with last_action := now }
  match a.action with
  | Action.Seeding =>
    match lookupKey a.peer_id t.seeders with
    | some p =>
      let pd := p.update a now
      ({ t with seeders := insertKey a.peer_id pd.1 t.seeders }, pd.2)
    | none =>
      ({ t with seeders := insertKey a.peer_id (Peer.new a now) t.seeders },
       Delta.new a.peer_id)
  | Action.Leeching =>
    match lookupKey a.peer_id t.leechers with
    | some p =>
      let pd := p.update a now
      ({ t with leechers := insertKey a.peer_id pd.1 t.leechers }, pd.2)
    | none =>
      ({ t with leechers := insertKey a.peer_id (Peer.new a now) t.leechers },
       Delta.new a.peer_id)
  | Action.Completed =>
    let peer := match lookupKey a.peer_id t.leechers with
      | some p => p
      | none => Peer.new a now
    let pd := peer.update a now
    ({ t with leechers := removeKey a.peer_id t.leechers,
              seeders := insertKey a.peer_id pd.1 t.seeders,
              snatches := t.snatches + 1 },
     pd.2)
  | Action.Stopped =>
    let lres := lookupKey a.peer_id t.leechers
    let sres := lookupKey a.peer_id t.seeders
    let t1 := { t with leechers := removeKey a.peer_id t.leechers,
                       seeders := removeKey a.peer_id t.seeders }
    match lres, sres with
    | some p, _ => (t1, (p.update a now).2)
    | none, some p => (t1, (p.update a now).2)
    | none, none => (t1, Delta.new a.peer_id)

/-- Embedding of `Torrent::get_stats` from `torrent.rs`. -/
def Torrent.get_stats (t : Torrent) : Stats :=
  ⟨t.seeders.length, t.leechers.length, t.snatches⟩

/-- Embedding of `Torrent::reap` from `torrent.rs`: collect the keys of peers inactive for
more than 3600 seconds, then remove them, leechers first then seeders. -/
def Torrent.reap (t : Torrent) (now : Nat) : Torrent :=
  let ldel := (t.leechers.filter (fun kv => now - kv.2.last_action > 3600)).map (·.1)
  let leechers := ldel.foldl (fun m k => removeKey k m) t.leechers
  let sdel := (t.seeders.filter (fun kv => now - kv.2.last_action > 3600)).map (·.1)
  let seeders := sdel.foldl (fun m k => removeKey k m) t.seeders
  { t with leechers := leechers, seeders := seeders }


lemma lookupKey_removeKey (k k' : String) (m : List (String × Peer)) :
    lookupKey k (removeKey k' m) = if k' = k then none else lookupKey k m := by
  induction m with
  | nil => simp [removeKey, lookupKey]
  | cons kv rest ih =>
    obtain ⟨k2, v⟩ := kv
    by_cases h2 : k2 = k'
    · subst h2
      by_cases hk : k2 = k
      · subst hk
        simp [removeKey, lookupKey] at ih ⊢
        simpa [removeKey] using ih
      · simp [removeKey, lookupKey, hk] at ih ⊢
        simpa [removeKey] using ih
    · by_cases hk : k2 = k
      · subst hk
        simp [removeKey, lookupKey, h2] at ih ⊢
        intro h
        exact absurd h.symm h2
      · simp [removeKey, lookupKey, hk, h2] at ih ⊢
        simpa [removeKey] using ih

lemma lookupKey_insertKey (k k' : String) (v : Peer) (m : List (String × Peer)) :
    lookupKey k (insertKey k' v m) = if k' = k then some v else lookupKey k m := by
  unfold insertKey
  by_cases h : k' = k
  · simp [lookupKey, h]
  · simp [lookupKey, h, lookupKey_removeKey]

lemma containsKey_insertKey (k k' : String) (v : Peer) (m : List (String × Peer)) :
    containsKey k (insertKey k' v m) = if k' = k then true else containsKey k m := by
  unfold containsKey
  rw [lookupKey_insertKey]
  by_cases h : k' = k <;> simp [h]

lemma containsKey_removeKey (k k' : String) (m : List (String × Peer)) :
    containsKey k (removeKey k' m) = if k' = k then false else containsKey k m := by
  unfold containsKey
  rw [lookupKey_removeKey]
  by_cases h : k' = k <;> simp [h]

lemma removeKey_of_not_containsKey (k : String) (m : List (String × Peer))
    (h : containsKey k m = false) : removeKey k m = m := by
  induction m with
  | nil => rfl
  | cons kv rest ih =>
    obtain ⟨k2, v⟩ := kv
    by_cases h2 : k2 = k
    · subst h2
      simp [containsKey, lookupKey] at h
    · simp [containsKey, lookupKey, h2] at h
      simp [removeKey, h2] at ih ⊢
      exact ih (by simpa [containsKey] using h)

lemma containsKey_foldl_removeKey (k : String) (ks : List String)
    (m : List (String × Peer))
    (h : containsKey k (ks.foldl (fun m2 k2 => removeKey k2 m2) m) = true) :
    containsKey k m = true := by
  induction ks generalizing m with
  | nil => exact h
  | cons k2 rest ih =>
    have := ih (removeKey k2 m) (by simpa using h)
    rw [containsKey_removeKey] at this
    by_cases hk : k2 = k
    · simp [hk] at this
    · simpa [hk] using this

/-- The C1 invariant: a peer_id is a key of at most one of the two maps. -/
def rolesDisjoint (t : Torrent) : Prop :=
  ∀ k, ¬(containsKey k t.seeders = true ∧ containsKey k t.leechers = true)

/-- Concrete IPv4 endpoint used by the example announces. -/
def exV4 : SockV4 := ⟨⟨203, 0, 113, 5⟩, 6881⟩

/-- Example announce: peer P1 leeching. -/
def exLeech : Announce :=
  ⟨"AAAAAAAAAAAAAAAAAAAA", "P1", some exV4, none, 0, 0, 1000, Action.Leeching, 25⟩

/-- Example announce: the same peer P1 re-announcing with left = 0 and no
event, which derives the Seeding action. -/
def exSeedSame : Announce := { exLeech with action := Action.Seeding, left := 0 }

/-- Example announce: the same peer P1 announcing Completed. -/
def exCompleted : Announce := { exLeech with action := Action.Completed, left := 0 }

/-- Example announce: the same peer P1 announcing Stopped. -/
def exStopped : Announce := { exLeech with action := Action.Stopped }

/-- Claim C1 (amended): the seeders/leechers disjointness is preserved by
`reap` and by every branch of `update` except a Seeding announce for a peer
currently in leechers or a Leeching announce for a peer currently in seeders
(read operations do not mutate the state). -/
theorem c1_disjoint_preserved :
    (∀ (t : Torrent) (a : Announce) (now : Nat), rolesDisjoint t →
      (a.action = Action.Seeding → containsKey a.peer_id t.leechers = false) →
      (a.action = Action.Leeching → containsKey a.peer_id t.seeders = false) →
      rolesDisjoint (t.update a now).1) ∧
    (∀ (t : Torrent) (now : Nat), rolesDisjoint t → rolesDisjoint (t.reap now)) := by
  constructor
  · intro t a now hd hS hL
    cases ha : a.action
    case Seeding =>
      have hS2 := hS ha
      simp only [Torrent.update, ha]
      cases hq : lookupKey a.peer_id t.seeders
      case some p =>
        intro k hk
        obtain ⟨hs, hl⟩ := hk
        simp only [containsKey_insertKey] at hs
        by_cases hpk : a.peer_id = k
        · subst hpk
          exact hd a.peer_id ⟨by simp [containsKey, hq], hl⟩
        · simp [hpk] at hs
          exact hd k ⟨hs, hl⟩
      case none =>
        intro k hk
        obtain ⟨hs, hl⟩ := hk
        simp only [containsKey_insertKey] at hs
        by_cases hpk : a.peer_id = k
        · subst hpk
          rw [hS2] at hl
          exact Bool.false_ne_true hl
        · simp [hpk] at hs
          exact hd k ⟨hs, hl⟩
    case Leeching =>
      have hL2 := hL ha
      simp only [Torrent.update, ha]
      cases hq : lookupKey a.peer_id t.leechers
      case some p =>
        intro k hk
        obtain ⟨hs, hl⟩ := hk
        simp only [containsKey_insertKey] at hl
        by_cases hpk : a.peer_id = k
        · subst hpk
          exact hd a.peer_id ⟨hs, by simp [containsKey, hq]⟩
        · simp [hpk] at hl
          exact hd k ⟨hs, hl⟩
      case none =>
        intro k hk
        obtain ⟨hs, hl⟩ := hk
        simp only [containsKey_insertKey] at hl
        by_cases hpk : a.peer_id = k
        · subst hpk
          rw [hL2] at hs
          exact Bool.false_ne_true hs
        · simp [hpk] at hl
          exact hd k ⟨hs, hl⟩
    case Completed =>
      simp only [Torrent.update, ha]
      intro k hk
      obtain ⟨hs, hl⟩ := hk
      simp only [containsKey_insertKey] at hs
      simp only [containsKey_removeKey] at hl
      by_cases hpk : a.peer_id = k
      · simp [hpk] at hl
      · simp [hpk] at hs hl
        exact hd k ⟨hs, hl⟩
    case Stopped =>
      simp only [Torrent.update, ha]
      cases hlr : lookupKey a.peer_id t.leechers <;>
        cases hsr : lookupKey a.peer_id t.seeders <;>
      · intro k hk
        obtain ⟨hs, hl⟩ := hk
        simp only [containsKey_removeKey] at hs hl
        by_cases hpk : a.peer_id = k
        · simp [hpk] at hs
        · simp [hpk] at hs hl
          exact hd k ⟨hs, hl⟩
  · intro t now hd k hk
    obtain ⟨hs, hl⟩ := hk
    exact hd k ⟨containsKey_foldl_removeKey _ _ _ hs,
                containsKey_foldl_removeKey _ _ _ hl⟩

/-- Claim C1 counterexample: starting from a fresh torrent, a Leeching
announce for P1 followed by a Seeding announce for the same P1 (a re-announce
with left = 0 and no event) leaves P1 a key of both maps at once. -/
theorem c1_counterexample :
    containsKey "P1"
      ((((Torrent.new "h" 0).update exLeech 1).1.update exSeedSame 2).1).seeders = true ∧
    containsKey "P1"
      ((((Torrent.new "h" 0).update exLeech 1).1.update exSeedSame 2).1).leechers = true := by
  constructor <;> rfl

/-- Witness for C1: the amended preservation theorem applied to a fresh
torrent receiving P1's Leeching announce. -/
theorem c1_witness : rolesDisjoint ((Torrent.new "h" 0).update exLeech 1).1 :=
  c1_disjoint_preserved.1 (Torrent.new "h" 0) exLeech 1
    (fun k h => by simp [Torrent.new, containsKey, lookupKey] at h)
    (fun h => by simp [exLeech] at h)
    (fun _ => rfl)

/-- Claim C3 (amended): the snatch counter increments by exactly 1 on every
Completed announce regardless of the peer's prior role, so repeated Completed
announces for a peer already in seeders are NOT idempotent with respect to
the snatch count. -/
theorem c3_completed_always_increments (t : Torrent) (a : Announce) (now : Nat)
    (ha : a.action = Action.Completed) :
    ((t.update a now).1).snatches = t.snatches + 1 := by
  simp only [Torrent.update, ha]

/-- Claim C3 counterexample: after P1 completes once (P1 is then a seeder and
not a leecher), repeating the identical Completed announce increments the
snatch counter a second time. -/
theorem c3_counterexample :
    containsKey "P1" (((Torrent.new "h" 0).update exCompleted 1).1).seeders = true ∧
    containsKey "P1" (((Torrent.new "h" 0).update exCompleted 1).1).leechers = false ∧
    ((((Torrent.new "h" 0).update exCompleted 1).1.update exCompleted 2).1).snatches ≠
      (((Torrent.new "h" 0).update exCompleted 1).1).snatches := by
  refine ⟨rfl, rfl, ?_⟩
  decide

/-- Witness for C3: the amended increment theorem at a concrete torrent. -/
theorem c3_witness :
    (((Torrent.new "h" 0).update exCompleted 1).1).snatches =
      (Torrent.new "h" 0).snatches + 1 :=
  c3_completed_always_increments (Torrent.new "h" 0) exCompleted 1 rfl

/-- Claim C7: a Completed announce for a peer currently in leechers moves it
to seeders, removes it from leechers, and increments the snatch counter by
exactly one. -/
theorem c7_completed_from_leecher (t : Torrent) (a : Announce) (now : Nat)
    (ha : a.action = Action.Completed)
    (_hl : containsKey a.peer_id t.leechers = true) :
    containsKey a.peer_id ((t.update a now).1).seeders = true ∧
    containsKey a.peer_id ((t.update a now).1).leechers = false ∧
    ((t.update a now).1).snatches = t.snatches + 1 := by
  simp only [Torrent.update, ha]
  refine ⟨?_, ?_, trivial⟩
  · rw [containsKey_insertKey]
    simp
  · rw [containsKey_removeKey]
    simp

/-- Witness for C7: P1 leeches into a fresh torrent, then completes. -/
theorem c7_witness :
    containsKey "P1"
      ((((Torrent.new "h" 0).update exLeech 1).1.update exCompleted 2).1).seeders = true ∧
    containsKey "P1"
      ((((Torrent.new "h" 0).update exLeech 1).1.update exCompleted 2).1).leechers = false ∧
    ((((Torrent.new "h" 0).update exLeech 1).1.update exCompleted 2).1).snatches =
      (((Torrent.new "h" 0).update exLeech 1).1).snatches + 1 :=
  c7_completed_from_leecher ((Torrent.new "h" 0).update exLeech 1).1 exCompleted 2
    rfl rfl

/-- Claim C8: a Stopped announce removes the peer from both maps whatever its
prior role, and when the peer was in neither map the update leaves both maps
unchanged and produces the empty Delta. -/
theorem c8_stopped_removes (t : Torrent) (a : Announce) (now : Nat)
    (ha : a.action = Action.Stopped) :
    containsKey a.peer_id ((t.update a now).1).seeders = false ∧
    containsKey a.peer_id ((t.update a now).1).leechers = false ∧
    (containsKey a.peer_id t.seeders = false →
     containsKey a.peer_id t.leechers = false →
      ((t.update a now).1).seeders = t.seeders ∧
      ((t.update a now).1).leechers = t.leechers ∧
      (t.update a now).2 = Delta.new a.peer_id) := by
  simp only [Torrent.update, ha]
  cases hlr : lookupKey a.peer_id t.leechers <;>
    cases hsr : lookupKey a.peer_id t.seeders <;>
    simp only [containsKey_removeKey, if_pos rfl]
  case none.none =>
    refine ⟨rfl, rfl, ?_⟩
    intro h1 h2
    exact ⟨removeKey_of_not_containsKey _ _ h1, removeKey_of_not_containsKey _ _ h2, trivial⟩
  case none.some p =>
    refine ⟨rfl, rfl, ?_⟩
    intro h1 _
    rw [containsKey, hsr] at h1
    simp at h1
  case some.none p =>
    refine ⟨rfl, rfl, ?_⟩
    intro _ h2
    rw [containsKey, hlr] at h2
    simp at h2
  case some.some p q =>
    refine ⟨rfl, rfl, ?_⟩
    intro h1 _
    rw [containsKey, hsr] at h1
    simp at h1

/-- Witness for C8: P1 leeches into a fresh torrent, then stops; and on the
fresh torrent itself a Stopped announce is a no-op producing the empty
Delta. -/
theorem c8_witness :
    containsKey "P1"
      ((((Torrent.new "h" 0).update exLeech 1).1.update exStopped 2).1).seeders = false ∧
    containsKey "P1"
      ((((Torrent.new "h" 0).update exLeech 1).1.update exStopped 2).1).leechers = false :=
  ⟨(c8_stopped_removes ((Torrent.new "h" 0).update exLeech 1).1 exStopped 2 rfl).1,
   (c8_stopped_removes ((Torrent.new "h" 0).update exLeech 1).1 exStopped 2 rfl).2.1⟩

/-- Embedding of `Peers` from `torrent.rs`: the two compact-encoded byte sequences. -/
structure Peers where
  peers4 : List Nat
  peers6 : List Nat
deriving DecidableEq

/-- The loop of `get_ips` from `torrent.rs` (lines 170-198): walk the map's
values; stop when `count == wanted`; a peer with both endpoints contributes
both encodings and counts once; a peer with neither is skipped without
counting.  The bytes appended to the caller's two vectors are returned as
the first two components, the final `count` as the third. -/
def get_ips_loop (peer_dict : List (String × Peer)) (wanted count : Nat) :
    List Nat × List Nat × Nat :=
  match peer_dict with
  | [] => ([], [], count)
  | (_, peer) :: rest =>
    if count = wanted then ([], [], count)
    else
      match peer.ipv4, peer.ipv6 with
      | some v4, some v6 =>
        let r := get_ips_loop rest wanted (count + 1)
        (v4_to_bytes v4 ++ r.1, v6_to_bytes v6 ++ r.2.1, r.2.2)
      | some v4, none =>
        let r := get_ips_loop rest wanted (count + 1)
        (v4_to_bytes v4 ++ r.1, r.2.1, r.2.2)
      | none, some v6 =>
        let r := get_ips_loop rest wanted (count + 1)
        (r.1, v6_to_bytes v6 ++ r.2.1, r.2.2)
      | none, none => get_ips_loop rest wanted count

/-- Embedding of `get_ips` from `torrent.rs`: the loop started with `count = 0`. -/
def get_ips (peer_dict : List (String × Peer)) (wanted : Nat) :
    List Nat × List Nat × Nat :=
  get_ips_loop peer_dict wanted 0

/-- Embedding of `Torrent::get_peers` from `torrent.rs` (lines 93-134): a Leeching
requester is served from seeders, then from leechers with the remaining
quota; a Stopped requester gets nothing; anything else is served from
leechers then seeders. -/
def Torrent.get_peers (t : Torrent) (amount : Nat) (action : Action) : Peers :=
  match action with
  | Action.Leeching =>
    let r := get_ips t.seeders amount
    if r.2.2 = amount then ⟨r.1, r.2.1⟩
    else
      let r2 := get_ips t.leechers (amount - r.2.2)
      ⟨r.1 ++ r2.1, r.2.1 ++ r2.2.1⟩
  | Action.Stopped => ⟨[], []⟩
  | _ =>
    let r := get_ips t.leechers amount
    if r.2.2 = amount then ⟨r.1, r.2.1⟩
    else
      let r2 := get_ips t.seeders (amount - r.2.2)
      ⟨r.1 ++ r2.1, r.2.1 ++ r2.2.1⟩

/-- The number of endpoint groups `get_peers` serves: the counts returned by
the same `get_ips` calls `get_peers` makes. -/
def Torrent.get_peers_count (t : Torrent) (amount : Nat) (action : Action) : Nat :=
  match action with
  | Action.Leeching =>
    let c := (get_ips t.seeders amount).2.2
    if c = amount then c else c + (get_ips t.leechers (amount - c)).2.2
  | Action.Stopped => 0
  | _ =>
    let c := (get_ips t.leechers amount).2.2
    if c = amount then c else c + (get_ips t.seeders (amount - c)).2.2

lemma v4_to_bytes_length (s : SockV4) : (v4_to_bytes s).length = 6 := by
  simp [v4_to_bytes, u16_to_u8]

lemma v6_to_bytes_length (s : SockV6) : (v6_to_bytes s).length = 18 := by
  simp [v6_to_bytes, u16_to_u8]

lemma get_ips_loop_count (peer_dict : List (String × Peer)) (w c : Nat) (h : c ≤ w) :
    c ≤ (get_ips_loop peer_dict w c).2.2 ∧ (get_ips_loop peer_dict w c).2.2 ≤ w := by
  induction peer_dict generalizing c with
  | nil => simpa [get_ips_loop] using h
  | cons kv rest ih =>
    obtain ⟨k, p⟩ := kv
    simp only [get_ips_loop]
    by_cases hc : c = w
    · simp [hc]
    · have hlt : c < w := lt_of_le_of_ne h hc
      rw [if_neg hc]
      cases hp4 : p.ipv4 <;> cases hp6 : p.ipv6
      · simpa using ih c h
      · obtain ⟨h1, h2⟩ := ih (c + 1) hlt
        exact ⟨le_trans (Nat.le_succ c) h1, h2⟩
      · obtain ⟨h1, h2⟩ := ih (c + 1) hlt
        exact ⟨le_trans (Nat.le_succ c) h1, h2⟩
      · obtain ⟨h1, h2⟩ := ih (c + 1) hlt
        exact ⟨le_trans (Nat.le_succ c) h1, h2⟩

lemma get_ips_loop_len (peer_dict : List (String × Peer)) (w c : Nat) (h : c ≤ w) :
    (get_ips_loop peer_dict w c).1.length ≤ 6 * ((get_ips_loop peer_dict w c).2.2 - c) ∧
    (get_ips_loop peer_dict w c).2.1.length ≤ 18 * ((get_ips_loop peer_dict w c).2.2 - c) := by
  induction peer_dict generalizing c with
  | nil => simp [get_ips_loop]
  | cons kv rest ih =>
    obtain ⟨k, p⟩ := kv
    simp only [get_ips_loop]
    by_cases hc : c = w
    · simp [hc]
    · have hlt : c < w := lt_of_le_of_ne h hc
      rw [if_neg hc]
      cases hp4 : p.ipv4 <;> cases hp6 : p.ipv6
      · simpa using ih c h
      · obtain ⟨h1, h2⟩ := ih (c + 1) hlt
        have hcle := (get_ips_loop_count rest w (c + 1) hlt).1
        simp only [List.length_append]
        constructor
        · omega
        · rw [v6_to_bytes_length]
          omega
      · obtain ⟨h1, h2⟩ := ih (c + 1) hlt
        have hcle := (get_ips_loop_count rest w (c + 1) hlt).1
        simp only [List.length_append]
        constructor
        · rw [v4_to_bytes_length]
          omega
        · omega
      · obtain ⟨h1, h2⟩ := ih (c + 1) hlt
        have hcle := (get_ips_loop_count rest w (c + 1) hlt).1
        simp only [List.length_append]
        constructor
        · rw [v4_to_bytes_length]
          omega
        · rw [v6_to_bytes_length]
          omega

lemma get_ips_loop_at_wanted (peer_dict : List (String × Peer)) (w : Nat) :
    get_ips_loop peer_dict w w = ([], [], w) := by
  cases peer_dict with
  | nil => rfl
  | cons kv rest => simp [get_ips_loop]

/-- Concrete IPv6 endpoint used by the example peers. -/
def exV6 : SockV6 := ⟨⟨8193, 3512, 0, 0, 0, 0, 0, 1⟩, 6881⟩

/-- A peer with no resolvable endpoint of either family. -/
def exPeerNone : Peer := ⟨none, none, 0, 0, 0⟩

/-- A peer with endpoints of both families. -/
def exPeerBoth : Peer := ⟨some exV4, some exV6, 0, 0, 0⟩

/-- Claim C9: `get_peers` serves at most `amount` combined endpoint groups
(equivalently, at most `6 * amount` IPv4 bytes and `18 * amount` IPv6
bytes); a Leeching requester is served from seeders first and from leechers
only with the remaining quota; a Seeding or Completed requester is served
from leechers first, falling back to seeders; a Stopped requester gets an
empty result; a peer with neither endpoint is skipped without counting; and
a peer with both families contributes both encodings while counting once. -/
theorem c9_get_peers_spec :
    (∀ (t : Torrent) (amount : Nat), t.get_peers amount Action.Stopped = ⟨[], []⟩) ∧
    (∀ (t : Torrent) (amount : Nat) (action : Action),
       t.get_peers_count amount action ≤ amount) ∧
    (∀ (t : Torrent) (amount : Nat) (action : Action),
       (t.get_peers amount action).peers4.length ≤ 6 * amount ∧
       (t.get_peers amount action).peers6.length ≤ 18 * amount) ∧
    (∀ (t : Torrent) (amount : Nat),
       (t.get_peers amount Action.Leeching).peers4 =
         (get_ips t.seeders amount).1 ++
           (get_ips t.leechers (amount - (get_ips t.seeders amount).2.2)).1 ∧
       (t.get_peers amount Action.Leeching).peers6 =
         (get_ips t.seeders amount).2.1 ++
           (get_ips t.leechers (amount - (get_ips t.seeders amount).2.2)).2.1) ∧
    (∀ (t : Torrent) (amount : Nat) (action : Action),
       action = Action.Seeding ∨ action = Action.Completed →
       (t.get_peers amount action).peers4 =
         (get_ips t.leechers amount).1 ++
           (get_ips t.seeders (amount - (get_ips t.leechers amount).2.2)).1 ∧
       (t.get_peers amount action).peers6 =
         (get_ips t.leechers amount).2.1 ++
           (get_ips t.seeders (amount - (get_ips t.leechers amount).2.2)).2.1) ∧
    (∀ (k : String) (p : Peer) (rest : List (String × Peer)) (w c : Nat),
       p.ipv4 = none → p.ipv6 = none →
       get_ips_loop ((k, p) :: rest) w c = get_ips_loop rest w c) ∧
    (∀ (k : String) (p : Peer) (rest : List (String × Peer)) (w c : Nat)
       (v4 : SockV4) (v6 : SockV6), c ≠ w → p.ipv4 = some v4 → p.ipv6 = some v6 →
       get_ips_loop ((k, p) :: rest) w c =
         (v4_to_bytes v4 ++ (get_ips_loop rest w (c + 1)).1,
          v6_to_bytes v6 ++ (get_ips_loop rest w (c + 1)).2.1,
          (get_ips_loop rest w (c + 1)).2.2)) := by
  have hcount : ∀ (m : List (String × Peer)) (w : Nat), (get_ips m w).2.2 ≤ w :=
    fun m w => (get_ips_loop_count m w 0 (Nat.zero_le w)).2
  have hlen4 : ∀ (m : List (String × Peer)) (w : Nat),
      (get_ips m w).1.length ≤ 6 * (get_ips m w).2.2 :=
    fun m w => by simpa using (get_ips_loop_len m w 0 (Nat.zero_le w)).1
  have hlen6 : ∀ (m : List (String × Peer)) (w : Nat),
      (get_ips m w).2.1.length ≤ 18 * (get_ips m w).2.2 :=
    fun m w => by simpa using (get_ips_loop_len m w 0 (Nat.zero_le w)).2
  have hzero : ∀ (m : List (String × Peer)), get_ips m 0 = ([], [], 0) :=
    fun m => get_ips_loop_at_wanted m 0
  refine ⟨?_, ?_, ?_, ?_, ?_, ?_, ?_⟩
  · intro t amount
    rfl
  · intro t amount action
    cases action <;> simp only [Torrent.get_peers_count]
    case Stopped => exact Nat.zero_le _
    case Leeching =>
      have h1 := hcount t.seeders amount
      have h2 := hcount t.leechers (amount - (get_ips t.seeders amount).2.2)
      by_cases hc : (get_ips t.seeders amount).2.2 = amount <;> simp [hc] <;> omega
    all_goals
      have h1 := hcount t.leechers amount
      have h2 := hcount t.seeders (amount - (get_ips t.leechers amount).2.2)
      by_cases hc : (get_ips t.leechers amount).2.2 = amount <;> simp [hc] <;> omega
  · intro t amount action
    cases action <;> simp only [Torrent.get_peers]
    case Stopped => simp
    case Leeching =>
      have h1 := hcount t.seeders amount
      have h2 := hcount t.leechers (amount - (get_ips t.seeders amount).2.2)
      have l1 := hlen4 t.seeders amount
      have l2 := hlen4 t.leechers (amount - (get_ips t.seeders amount).2.2)
      have l3 := hlen6 t.seeders amount
      have l4 := hlen6 t.leechers (amount - (get_ips t.seeders amount).2.2)
      by_cases hc : (get_ips t.seeders amount).2.2 = amount <;>
        simp [hc, List.length_append] <;> constructor <;> omega
    all_goals
      have h1 := hcount t.leechers amount
      have h2 := hcount t.seeders (amount - (get_ips t.leechers amount).2.2)
      have l1 := hlen4 t.leechers amount
      have l2 := hlen4 t.seeders (amount - (get_ips t.leechers amount).2.2)
      have l3 := hlen6 t.leechers amount
      have l4 := hlen6 t.seeders (amount - (get_ips t.leechers amount).2.2)
      by_cases hc : (get_ips t.leechers amount).2.2 = amount <;>
        simp [hc, List.length_append] <;> constructor <;> omega
  · intro t amount
    simp only [Torrent.get_peers]
    by_cases hc : (get_ips t.seeders amount).2.2 = amount
    · simp [hc, hzero]
    · simp [hc]
  · intro t amount action hact
    rcases hact with h | h <;> subst h <;> simp only [Torrent.get_peers] <;>
      by_cases hc : (get_ips t.leechers amount).2.2 = amount
    · simp [hc, hzero]
    · simp [hc]
    · simp [hc, hzero]
    · simp [hc]
  · intro k p rest w c hp4 hp6
    by_cases hc : c = w
    · subst hc
      rw [get_ips_loop_at_wanted, get_ips_loop_at_wanted]
    · simp [get_ips_loop, hc, hp4, hp6]
  · intro k p rest w c v4 v6 hc hp4 hp6
    simp [get_ips_loop, hc, hp4, hp6]

/-- Witness for C9: concrete instances of the quota bound, the skip of an
endpointless peer, and the both-families case. -/
theorem c9_witness :
    (Torrent.new "h" 0).get_peers 5 Action.Stopped = ⟨[], []⟩ ∧
    Torrent.get_peers_count ((Torrent.new "h" 0).update exLeech 1).1 5
      Action.Leeching ≤ 5 ∧
    get_ips_loop [("P0", exPeerNone)] 5 0 = get_ips_loop [] 5 0 ∧
    get_ips_loop [("P1", exPeerBoth)] 5 0 =
      (v4_to_bytes exV4 ++ (get_ips_loop [] 5 1).1,
       v6_to_bytes exV6 ++ (get_ips_loop [] 5 1).2.1,
       (get_ips_loop [] 5 1).2.2) :=
  ⟨c9_get_peers_spec.1 (Torrent.new "h" 0) 5,
   c9_get_peers_spec.2.1 ((Torrent.new "h" 0).update exLeech 1).1 5 Action.Leeching,
   c9_get_peers_spec.2.2.2.2.2.1 "P0" exPeerNone [] 5 0 rfl rfl,
   c9_get_peers_spec.2.2.2.2.2.2 "P1" exPeerBoth [] 5 0 exV4 exV6 (by decide) rfl rfl⟩

/-- Claim C10: the compact IPv4 encoding is exactly 6 bytes and the IPv6
encoding exactly 18 bytes (address bytes then big-endian port); decoding
recovers the original endpoint exactly, so the encoding round-trips and is
injective on well-formed endpoints. -/
theorem c10_codec_roundtrip :
    (∀ s : SockV4, (v4_to_bytes s).length = 6) ∧
    (∀ s : SockV6, (v6_to_bytes s).length = 18) ∧
    (∀ s : SockV4, s.wf → bytes_to_v4 (v4_to_bytes s) = some s) ∧
    (∀ s : SockV6, s.wf → bytes_to_v6 (v6_to_bytes s) = some s) ∧
    (∀ s s2 : SockV4, s.wf → s2.wf → v4_to_bytes s = v4_to_bytes s2 → s = s2) ∧
    (∀ s s2 : SockV6, s.wf → s2.wf → v6_to_bytes s = v6_to_bytes s2 → s = s2) := by
  have hrt4 : ∀ s : SockV4, s.wf → bytes_to_v4 (v4_to_bytes s) = some s := by
    intro s hwf
    obtain ⟨⟨o1, o2, o3, o4⟩, port⟩ := s
    obtain ⟨h1, h2, h3, h4, h5⟩ := hwf
    simp only [v4_to_bytes, u16_to_u8_eq _ h5]
    simp [bytes_to_v4]
    omega
  have hrt6 : ∀ s : SockV6, s.wf → bytes_to_v6 (v6_to_bytes s) = some s := by
    intro s hwf
    obtain ⟨⟨s1, s2, s3, s4, s5, s6, s7, s8⟩, port⟩ := s
    obtain ⟨h1, h2, h3, h4, h5, h6, h7, h8, h9⟩ := hwf
    simp only [v6_to_bytes, u16_to_u8_eq _ h1, u16_to_u8_eq _ h2, u16_to_u8_eq _ h3,
      u16_to_u8_eq _ h4, u16_to_u8_eq _ h5, u16_to_u8_eq _ h6, u16_to_u8_eq _ h7,
      u16_to_u8_eq _ h8, u16_to_u8_eq _ h9]
    simp [bytes_to_v6]
    refine ⟨⟨?_, ?_, ?_, ?_, ?_, ?_, ?_, ?_⟩, ?_⟩ <;> omega
  refine ⟨v4_to_bytes_length, v6_to_bytes_length, hrt4, hrt6, ?_, ?_⟩
  · intro s s2 hs hs2 he
    have h := congrArg bytes_to_v4 he
    rw [hrt4 s hs, hrt4 s2 hs2] at h
    exact Option.some.inj h
  · intro s s2 hs hs2 he
    have h := congrArg bytes_to_v6 he
    rw [hrt6 s hs, hrt6 s2 hs2] at h
    exact Option.some.inj h

/-- Witness for C10: the round-trip at concrete endpoints of both families. -/
theorem c10_witness :
    bytes_to_v4 (v4_to_bytes exV4) = some exV4 ∧
    bytes_to_v6 (v6_to_bytes exV6) = some exV6 :=
  ⟨c10_codec_roundtrip.2.2.1 exV4 (by decide),
   c10_codec_roundtrip.2.2.2.1 exV6 (by decide)⟩

/-- Embedding of `ErrorResponse` from the error module: the two client-visible errors. -/
inductive ErrorResponse where
  | BadRequest
  | BadAction
deriving DecidableEq

/-- A raw query-parameter value, modelled by its `FromStr` parse outcomes for
each type `get_from_params::<T>` is instantiated at in `route.rs`.  The
parsers themselves are Rust std library code, external to this repository;
`asStr` is the raw text (`String`'s parse is infallible), the other fields
are `some v` exactly when the text parses as that type. -/
structure RawVal where
  asStr : String
  asU64 : Option Nat
  asU16 : Option Nat
  asU8 : Option Nat
  asIp : Option IpAddr
  asSock : Option SockAddr

/-- The parameter map built by `request_to_announce`'s insertion loop
(`HashMap<String, String>`): later duplicates win, so the claims see only
the final map, modelled as a function. -/
def Params : Type := String → Option RawVal

/-- Embedding of `hyper`'s request, reduced to what `route.rs` reads: the URI
(`some path` for `AbsolutePath`, `none` otherwise), the form-urlencoded
parse of its query part (the `url` crate is external), the
`X-Forwarded-For` header (`some r` when present, where `r` is the
utf8-decode-then-`IpAddr`-parse outcome of its first value), and the
connection's remote address. -/
structure Request where
  uri : Option (List Char)
  params : Params
  xff : Option (Option IpAddr)
  remote_addr : SockAddr

namespace Route

/-- Embedding of `get_from_params::<String>` from `route.rs`: missing key is BadRequest;
a String parse never fails. -/
def getStr (params : Params) (key : String) : Except ErrorResponse String :=
  match params key with
  | some v => Except.ok v.asStr
  | none => Except.error ErrorResponse.BadRequest

/-- Embedding of `get_from_params::<u64>` from `route.rs`: missing key or failed parse is
BadRequest. -/
def getU64 (params : Params) (key : String) : Except ErrorResponse Nat :=
  match params key with
  | some v =>
    match v.asU64 with
    | some n => Except.ok n
    | none => Except.error ErrorResponse.BadRequest
  | none => Except.error ErrorResponse.BadRequest

/-- Embedding of `get_from_params::<u16>` from `route.rs` (the `port` parameter). -/
def getU16 (params : Params) (key : String) : Except ErrorResponse Nat :=
  match params key with
  | some v =>
    match v.asU16 with
    | some n => Except.ok n
    | none => Except.error ErrorResponse.BadRequest
  | none => Except.error ErrorResponse.BadRequest

/-- Embedding of `get_from_params::<u8>` from `route.rs` (the `numwant` parameter). -/
def getU8 (params : Params) (key : String) : Except ErrorResponse Nat :=
  match params key with
  | some v =>
    match v.asU8 with
    | some n => Except.ok n
    | none => Except.error ErrorResponse.BadRequest
  | none => Except.error ErrorResponse.BadRequest

/-- Embedding of `get_from_params::<IpAddr>` from `route.rs`. -/
def getIp (params : Params) (key : String) : Except ErrorResponse IpAddr :=
  match params key with
  | some v =>
    match v.asIp with
    | some ip => Except.ok ip
    | none => Except.error ErrorResponse.BadRequest
  | none => Except.error ErrorResponse.BadRequest

/-- Embedding of `get_from_params::<SocketAddr>` from `route.rs`. -/
def getSock (params : Params) (key : String) : Except ErrorResponse SockAddr :=
  match params key with
  | some v =>
    match v.asSock with
    | some s => Except.ok s
    | none => Except.error ErrorResponse.BadRequest
  | none => Except.error ErrorResponse.BadRequest

/-- Embedding of `get_socket` from `route.rs` (lines 162-171): try the parameter both as a
bare `IpAddr` (paired with the announced port) and as a full `SocketAddr`;
exactly one succeeding wins, both succeeding (ambiguous) or neither yields
nothing. -/
def get_socket (params : Params) (key : String) (port : Nat) : Option SockAddr :=
  match getIp params key, getSock params key with
  | Except.error _, Except.error _ => none
  | Except.ok ip, Except.error _ => some (SockAddr.new ip port)
  | Except.error _, Except.ok sock => some sock
  | _, _ => none

/-- Embedding of `get_ips` from `route.rs` (lines 96-146): BEP-0007 resolution with proxy
forwarding. -/
def get_ips (params : Params) (req : Request) (port : Nat) :
    Option SockV4 × Option SockV6 :=
  let default_ip : SockAddr :=
    match req.xff with
    | some parsed =>
      match parsed with
      | some ip => SockAddr.new ip port
      | none => req.remote_addr
    | none => req.remote_addr
  let ip : SockAddr :=
    match getIp params "ip" with
    | Except.ok ip2 => SockAddr.new ip2 port
    | Except.error _ => default_ip
  match ip with
  | SockAddr.V4 v4 =>
    let v6 := match get_socket params "ipv6" port with
      | some (SockAddr.V6 s) => some s
      | _ => none
    (some v4, v6)
  | SockAddr.V6 v6 =>
    let v4 := match get_socket params "ipv4" port with
      | some (SockAddr.V4 s) => some s
      | _ => none
    (v4, some v6)

/-- Embedding of `get_action` from `route.rs` (lines 173-179). -/
def get_action (left : Nat) : Action :=
  if left = 0 then Action.Seeding else Action.Leeching

/-- Embedding of `request_to_announce` from `route.rs` (lines 44-94); each `try!` is a
match returning the error. -/
def request_to_announce (req : Request) : Except ErrorResponse Announce :=
  match getStr req.params "info_hash" with
  | Except.error e => Except.error e
  | Except.ok info_hash =>
  match getStr req.params "peer_id" with
  | Except.error e => Except.error e
  | Except.ok pid =>
  match getU64 req.params "uploaded" with
  | Except.error e => Except.error e
  | Except.ok ul =>
  match getU64 req.params "downloaded" with
  | Except.error e => Except.error e
  | Except.ok dl =>
  match getU64 req.params "left" with
  | Except.error e => Except.error e
  | Except.ok left =>
  match getU16 req.params "port" with
  | Except.error e => Except.error e
  | Except.ok port =>
    let ips := get_ips req.params req port
    let action :=
      match getStr req.params "event" with
      | Except.ok ev_str =>
        if ev_str = "started" then get_action left
        else if ev_str = "stopped" then Action.Stopped
        else if ev_str = "completed" then Action.Completed
        else get_action left
      | Except.error _ => get_action left
    let numwant :=
      match getU8 req.params "numwant" with
      | Except.ok amount => if amount > 25 then 25 else amount
      | Except.error _ => 25
    Except.ok ⟨info_hash, pid, ips.1, ips.2, ul, dl, left, action, numwant⟩

/-- The two success shapes of the routing layer; the external Tracker's
`handle_announce`/`handle_scrape` are out of the core's scope and modelled
from the spec as succeeding with a token recording the call. -/
inductive RouteOk where
  | announceOk (a : Announce)
  | scrapeOk
deriving DecidableEq

/-- Embedding of `String::find('?')` on the path, as a character index. -/
def findQuery : List Char → Option Nat
  | [] => none
  | c :: rest => if c = '?' then some 0 else (findQuery rest).map (· + 1)

/-- Embedding of `RequestHandler::handle` from `route.rs` (lines 19-42) up to the point
the response body is chosen.  `Option.none` models the panic of the
`.unwrap()` on line 28 when `request_to_announce` returns an error: the
handler never reaches `res.send`. -/
def handle (req : Request) : Option (Except ErrorResponse RouteOk) :=
  match req.uri with
  | some path =>
    match findQuery path with
    | some i =>
      let action := path.take (i + 1)
      if action = "/announce?".toList then
        match request_to_announce req with
        | Except.ok a => some (Except.ok (RouteOk.announceOk a))
        | Except.error _ => none
      else if action = "/scrape?".toList then
        some (Except.ok RouteOk.scrapeOk)
      else some (Except.error ErrorResponse.BadAction)
    | none => some (Except.error ErrorResponse.BadRequest)
  | none => some (Except.error ErrorResponse.BadAction)

end Route

/-- Per the spec's words (claim C5): resolve the opposite IPv6 family from
the explicit `ipv6` parameter, accepting a bare address paired with the
announced port, or a full address:port form, discarding the parameter as
ambiguous when both forms are separately resolvable, and keeping only a
result of the wanted family. -/
def spec_opposite_v6 (params : Params) (port : Nat) : Option SockV6 :=
  match params "ipv6" with
  | none => none
  | some v =>
    match v.asIp, v.asSock with
    | some ip, none =>
      match SockAddr.new ip port with
      | SockAddr.V6 s => some s
      | _ => none
    | none, some sock =>
      match sock with
      | SockAddr.V6 s => some s
      | _ => none
    | _, _ => none

/-- Per the spec's words (claim C5): the IPv4 counterpart of
`spec_opposite_v6`, reading the `ipv4` parameter. -/
def spec_opposite_v4 (params : Params) (port : Nat) : Option SockV4 :=
  match params "ipv4" with
  | none => none
  | some v =>
    match v.asIp, v.asSock with
    | some ip, none =>
      match SockAddr.new ip port with
      | SockAddr.V4 s => some s
      | _ => none
    | none, some sock =>
      match sock with
      | SockAddr.V4 s => some s
      | _ => none
    | _, _ => none

/-- The IP-resolution rule exactly as the specification words it (claim C5):
default candidate from the forwarded header's first value when it parses as
an IP (with the announced port), else the raw remote address; an explicit
`ip` parameter that parses overrides; the candidate's family is the primary
and is always populated; the opposite family comes from the explicit
`ipv4`/`ipv6` parameter. -/
def resolve_ips_spec (params : Params) (req : Request) (port : Nat) :
    Option SockV4 × Option SockV6 :=
  let dflt : SockAddr :=
    match req.xff with
    | some (some ip) => SockAddr.new ip port
    | _ => req.remote_addr
  let cand : SockAddr :=
    match params "ip" with
    | some v =>
      match v.asIp with
      | some ip => SockAddr.new ip port
      | none => dflt
    | none => dflt
  match cand with
  | SockAddr.V4 v4 => (some v4, spec_opposite_v6 params port)
  | SockAddr.V6 v6 => (spec_opposite_v4 params port, some v6)

lemma opposite_v6_eq (params : Params) (port : Nat) :
    (match Route.get_socket params "ipv6" port with
     | some (SockAddr.V6 s) => some s
     | _ => none) = spec_opposite_v6 params port := by
  unfold Route.get_socket spec_opposite_v6 Route.getIp Route.getSock
  cases hp : params "ipv6" with
  | none => rfl
  | some v =>
    cases hip : v.asIp with
    | none =>
      cases hs : v.asSock with
      | none => simp [hip, hs]
      | some sock => cases sock <;> simp [hip, hs]
    | some ip =>
      cases hs : v.asSock with
      | none => cases ip <;> simp [hip, hs, SockAddr.new]
      | some sock => simp [hip, hs]

lemma opposite_v4_eq (params : Params) (port : Nat) :
    (match Route.get_socket params "ipv4" port with
     | some (SockAddr.V4 s) => some s
     | _ => none) = spec_opposite_v4 params port := by
  unfold Route.get_socket spec_opposite_v4 Route.getIp Route.getSock
  cases hp : params "ipv4" with
  | none => rfl
  | some v =>
    cases hip : v.asIp with
    | none =>
      cases hs : v.asSock with
      | none => simp [hip, hs]
      | some sock => cases sock <;> simp [hip, hs]
    | some ip =>
      cases hs : v.asSock with
      | none => cases ip <;> simp [hip, hs, SockAddr.new]
      | some sock => simp [hip, hs]

/-- Claim C5: the IP resolution of `get_ips` in `route.rs` follows exactly
the spec's precedence — forwarded-header-or-remote default, explicit `ip`
override, primary family always populated from the candidate, opposite
family from the explicit `ipv4`/`ipv6` parameter with the
bare-or-socket-but-not-both rule. -/
theorem c5_get_ips_refines_spec (params : Params) (req : Request) (port : Nat) :
    Route.get_ips params req port = resolve_ips_spec params req port := by
  unfold Route.get_ips resolve_ips_spec
  have h6 := opposite_v6_eq params port
  have h4 := opposite_v4_eq params port
  cases hip : params "ip" with
  | some v =>
    cases hv : v.asIp with
    | some ip =>
      cases ip <;> simp [Route.getIp, hip, hv, SockAddr.new, h6, h4]
    | none =>
      cases hx : req.xff with
      | some parsed =>
        cases parsed with
        | some ip2 =>
          cases ip2 <;> simp [Route.getIp, hip, hv, hx, SockAddr.new, h6, h4]
        | none =>
          cases hr : req.remote_addr <;>
            simp [Route.getIp, hip, hv, hx, hr, h6, h4]
      | none =>
        cases hr : req.remote_addr <;>
          simp [Route.getIp, hip, hv, hx, hr, h6, h4]
  | none =>
    cases hx : req.xff with
    | some parsed =>
      cases parsed with
      | some ip2 =>
        cases ip2 <;> simp [Route.getIp, hip, hx, SockAddr.new, h6, h4]
      | none =>
        cases hr : req.remote_addr <;>
          simp [Route.getIp, hip, hx, hr, h6, h4]
    | none =>
      cases hr : req.remote_addr <;>
        simp [Route.getIp, hip, hx, hr, h6, h4]

lemma getStr_total (p : Params) (k : String) :
    (∃ s, Route.getStr p k = Except.ok s) ∨
    Route.getStr p k = Except.error ErrorResponse.BadRequest := by
  unfold Route.getStr
  cases p k
  · exact Or.inr rfl
  · exact Or.inl ⟨_, rfl⟩

lemma getU64_total (p : Params) (k : String) :
    (∃ n, Route.getU64 p k = Except.ok n) ∨
    Route.getU64 p k = Except.error ErrorResponse.BadRequest := by
  unfold Route.getU64
  cases p k with
  | none => exact Or.inr rfl
  | some v =>
    cases hv : v.asU64 with
    | none => exact Or.inr (by simp [hv])
    | some n => exact Or.inl ⟨n, by simp [hv]⟩

/-- Claim C6: the action derived by `request_to_announce` follows the event
parameter — started derives from left (0 is Seeding, else Leeching), stopped
and completed are unconditional, anything else or absence derives from left
as in the started case. -/
theorem c6_action_resolution (req : Request) (a : Announce)
    (h : Route.request_to_announce req = Except.ok a) :
    ((req.params "event").map RawVal.asStr = some "started" →
       a.action = (if a.left = 0 then Action.Seeding else Action.Leeching)) ∧
    ((req.params "event").map RawVal.asStr = some "stopped" →
       a.action = Action.Stopped) ∧
    ((req.params "event").map RawVal.asStr = some "completed" →
       a.action = Action.Completed) ∧
    ((∀ s, (req.params "event").map RawVal.asStr = some s →
        s ≠ "started" ∧ s ≠ "stopped" ∧ s ≠ "completed") →
       a.action = (if a.left = 0 then Action.Seeding else Action.Leeching)) := by
  unfold Route.request_to_announce at h
  split at h
  · exact Except.noConfusion h
  split at h
  · exact Except.noConfusion h
  split at h
  · exact Except.noConfusion h
  split at h
  · exact Except.noConfusion h
  split at h
  · exact Except.noConfusion h
  split at h
  · exact Except.noConfusion h
  injection h with h2
  subst h2
  refine ⟨?_, ?_, ?_, ?_⟩
  · intro hev
    cases hv : req.params "event" with
    | none => rw [hv] at hev; exact Option.noConfusion hev
    | some v =>
      rw [hv] at hev
      injection hev with hevs
      simp [Route.getStr, hv, hevs, Route.get_action]
  · intro hev
    cases hv : req.params "event" with
    | none => rw [hv] at hev; exact Option.noConfusion hev
    | some v =>
      rw [hv] at hev
      injection hev with hevs
      simp [Route.getStr, hv, hevs]
  · intro hev
    cases hv : req.params "event" with
    | none => rw [hv] at hev; exact Option.noConfusion hev
    | some v =>
      rw [hv] at hev
      injection hev with hevs
      simp [Route.getStr, hv, hevs]
  · intro hother
    cases hv : req.params "event" with
    | none => simp [Route.getStr, hv, Route.get_action]
    | some v =>
      obtain ⟨hn1, hn2, hn3⟩ := hother v.asStr (by rw [hv]; rfl)
      simp [Route.getStr, hv, hn1, hn2, hn3, Route.get_action]

/-- The raw connection's remote address in the examples. -/
def exRemote : SockAddr := SockAddr.V4 ⟨⟨203, 0, 113, 5⟩, 49152⟩

/-- A full parameter set for an announce with event=stopped and left=1000;
each value records its parse outcomes. -/
def exParamsFull : Params := fun k =>
  if k = "info_hash" then some ⟨"AAAAAAAAAAAAAAAAAAAA", none, none, none, none, none⟩
  else if k = "peer_id" then some ⟨"P1", none, none, none, none, none⟩
  else if k = "uploaded" then some ⟨"0", some 0, some 0, some 0, none, none⟩
  else if k = "downloaded" then some ⟨"0", some 0, some 0, some 0, none, none⟩
  else if k = "left" then some ⟨"1000", some 1000, some 1000, none, none, none⟩
  else if k = "port" then some ⟨"6881", some 6881, some 6881, none, none, none⟩
  else if k = "event" then some ⟨"stopped", none, none, none, none, none⟩
  else none

/-- The request carrying `exParamsFull`, no forwarded header. -/
def exReqFull : Request :=
  ⟨some ("/announce?x".toList), exParamsFull, none, exRemote⟩

/-- The announce `request_to_announce` builds from `exReqFull`. -/
def exAnnounceFull : Announce :=
  ⟨"AAAAAAAAAAAAAAAAAAAA", "P1", some ⟨⟨203, 0, 113, 5⟩, 49152⟩, none,
   0, 0, 1000, Action.Stopped, 25⟩

/-- Witness for C6: the concrete stopped announce resolves to Stopped. -/
theorem c6_witness : exAnnounceFull.action = Action.Stopped :=
  (c6_action_resolution exReqFull exAnnounceFull rfl).2.1 rfl

/-- Claim C4 (amended): a request whose path has no query string at all
yields BadRequest (not BadAction: line 35 of `route.rs` pairs the missing
`?` with `ErrorResponse::BadRequest`), and a request missing the required
`left` parameter makes `request_to_announce` return BadRequest (which the
handler then unwraps — see C2 — instead of sending it). -/
theorem c4_error_taxonomy :
    (∀ (req : Request) (path : List Char), req.uri = some path →
       Route.findQuery path = none →
       Route.handle req = some (Except.error ErrorResponse.BadRequest)) ∧
    (∀ req : Request, req.params "left" = none →
       Route.request_to_announce req = Except.error ErrorResponse.BadRequest) := by
  constructor
  · intro req path hu hq
    simp [Route.handle, hu, hq]
  · intro req h
    have hleft : Route.getU64 req.params "left" = Except.error ErrorResponse.BadRequest := by
      unfold Route.getU64
      rw [h]
    unfold Route.request_to_announce
    rcases getStr_total req.params "info_hash" with ⟨s1, h1⟩ | h1 <;> rw [h1]
    rcases getStr_total req.params "peer_id" with ⟨s2, h2⟩ | h2 <;> rw [h2]
    rcases getU64_total req.params "uploaded" with ⟨n1, h3⟩ | h3 <;> rw [h3]
    rcases getU64_total req.params "downloaded" with ⟨n2, h4⟩ | h4 <;> rw [h4]
    rw [hleft]

/-- The announce parameter set of `exParamsFull` but with `left` absent. -/
def exParamsMissingLeft : Params := fun k =>
  if k = "left" then none else exParamsFull k

/-- An announce request with no `left` parameter. -/
def exReqMissingLeft : Request :=
  ⟨some ("/announce?x".toList), exParamsMissingLeft, none, exRemote⟩

/-- An announce request whose path has no query string at all. -/
def exReqNoQuery : Request :=
  ⟨some ("/announce".toList), fun _ => none, none, exRemote⟩

/-- Claim C4 counterexample: the no-query-string request yields BadRequest,
which is not the BadAction the claim demands. -/
theorem c4_counterexample :
    Route.handle exReqNoQuery = some (Except.error ErrorResponse.BadRequest) ∧
    (some (Except.error ErrorResponse.BadRequest) :
        Option (Except ErrorResponse Route.RouteOk)) ≠
      some (Except.error ErrorResponse.BadAction) := by
  refine ⟨rfl, ?_⟩
  intro h
  simp at h

/-- Witness for C4: the amended taxonomy at the two concrete requests. -/
theorem c4_witness :
    Route.handle exReqNoQuery = some (Except.error ErrorResponse.BadRequest) ∧
    Route.request_to_announce exReqMissingLeft =
      Except.error ErrorResponse.BadRequest :=
  ⟨c4_error_taxonomy.1 exReqNoQuery "/announce".toList rfl rfl,
   c4_error_taxonomy.2 exReqMissingLeft rfl⟩

/-- Claim C2 (code bug): the announce interpretation of `exReqMissingLeft`
fails with BadRequest, but `handle` reaches the `.unwrap()` on line 28 of
`route.rs` and panics (modelled as `none`) instead of bencoding the error
into the response body as every other error branch does. -/
theorem c2_unwrap_panics :
    Route.request_to_announce exReqMissingLeft =
      Except.error ErrorResponse.BadRequest ∧
    Route.handle exReqMissingLeft = none := by
  exact ⟨rfl, rfl⟩

end Sanka
